import Mathlib

/-!
Shallow embedding of the travian_strategy game-engine core
(src/travian_strategy/game_engine): village data models, the village
factory, action generation, and the pending-construction game state,
together with the building-effects record of the data pipeline
(src/travian_strategy/data_pipeline/data_models.py).

Python integers are modelled as `Int` (validated model fields that pydantic
constrains to a nonnegative range are stored as `Nat` after validation),
Python `None`/optional values as `Option`, raising `ValueError` or a pydantic
validation error as `Except VilError` (the spec names these failures
`InvalidVillageType`, `PositionOccupied`, ...). Strings are `String`,
processed through their character lists; the embedding covers the ASCII
fragment (the unicode-digit liberality of Python `int` and `\d` is out of
modelled scope). Floating point appears only in
`ResourceField.base_production_per_hour`, where every intermediate value of
`30 * level * 1.5 ** (level - 1)` for the representable levels 0..10 is an
exactly representable dyadic rational (numerators below 2 ** 53), so the
Python float computation is exact and `int(...)` is the floor; it is
embedded as exact arithmetic.
-/

/-- Resource types, from resource_field_model.py (class ResourceType). -/
inductive ResourceType where
  | wood
  | clay
  | iron
  | crop
deriving DecidableEq, Repr

/-- Failure outcomes of the embedded operations. The Python source raises
ValueError (or a pydantic validation error built from one); the spec gives
the categories the names InvalidVillageType, PositionOccupied,
PositionOutOfRange. Pydantic range/pattern violations on a single
ResourceField or VillageBuilding are `invalidField` and `invalidBuilding`,
and a failure of the resource-fields validator of Village is
`invalidResourceFields`. -/
inductive VilError where
  | invalidVillageType
  | invalidResourceFields
  | invalidField
  | invalidBuilding
  | positionOccupied
  | positionOutOfRange
deriving DecidableEq, Repr

/-- A resource field, from resource_field_model.py (class ResourceField).
The pydantic bounds (level in [0,10], position in [1,18]) are enforced by
`mkResourceField`, the only way the embedded operations build one. -/
structure ResourceField where
  field_type : ResourceType
  level : Nat
  position : Nat
  culture_points_per_hour : Nat
deriving DecidableEq, Repr

/-- A building instance, from building_model.py (class VillageBuilding).
The pydantic bounds and the building_id pattern are enforced by
`mkVillageBuilding`. -/
structure VillageBuilding where
  building_id : String
  building_name : String
  level : Nat
  position : Nat
  singleton : Bool
deriving DecidableEq, Repr

/-- A village, from village_model.py (class Village). Only the attributes
the verified claims touch are carried (troops, timestamps, resource stocks
and caps, population and culture points do not influence any embedded
operation). The validators of the Python model are enforced by `mkVillage`. -/
structure Village where
  village_type : String
  capital : Bool
  resource_fields : List ResourceField
  buildings : List VillageBuilding
deriving DecidableEq, Repr

/-- One element of the list returned by Village.get_valid_actions. The
Python list mixes ActionModel instances with, for building upgrades, a
formatted message string (village_model.py line 207 appends an f-string,
not an UpgradeBuildingAction); `strMessage` embeds that string element. -/
inductive ActionItem where
  | buildResourceField (position : Nat) (field_type : ResourceType) (target_level : Nat)
  | upgradeResourceField (position : Nat) (field_type : ResourceType) (target_level : Nat)
  | buildBuildingAction (position : Nat) (building_id : String) (target_level : Nat)
  | strMessage (message : String)
deriving DecidableEq, Repr

/-- ASCII decimal digit test, via code points (Python `\d` on ASCII input,
and the digits accepted by `int`). -/
def isDigitChar (c : Char) : Bool :=
  48 ≤ c.toNat && c.toNat ≤ 57

/-- Characters stripped by Python `int(str)` before parsing: space, tab,
newline, carriage return, vertical tab, form feed (ASCII fragment). -/
def isPySpace (c : Char) : Bool :=
  c.toNat = 32 || c.toNat = 9 || c.toNat = 10 || c.toNat = 13 || c.toNat = 11 || c.toNat = 12

/-- Numeric value of a decimal digit character. -/
def digitVal (c : Char) : Nat :=
  c.toNat - 48

/-- Decimal value of a digit run. -/
def digitsToNat (cs : List Char) : Nat :=
  cs.foldl (fun a c => 10 * a + digitVal c) 0

/-- Python str.split with an explicit one-character separator: keeps empty
parts, so the result always has one part more than the number of
separators. -/
def pySplit : List Char → Char → List (List Char)
  | [], _ => [[]]
  | c :: rest, sep =>
    if c = sep then [] :: pySplit rest sep
    else
      match pySplit rest sep with
      | [] => [[c]]
      | p :: ps => (c :: p) :: ps

/-- Strip leading and trailing whitespace, as Python int does on its
argument. -/
def pyStrip (cs : List Char) : List Char :=
  ((cs.dropWhile isPySpace).reverse.dropWhile isPySpace).reverse

/-- Digit-run scanner of Python int after the first digit: accepts further
digits and single underscores that stand between two digits. -/
def pyDigitsAux : Nat → List Char → Option Nat
  | acc, [] => some acc
  | acc, c :: rest =>
    if isDigitChar c then pyDigitsAux (10 * acc + digitVal c) rest
    else if c = '_' then
      match rest with
      | [] => none
      | d :: rest2 =>
        if isDigitChar d then pyDigitsAux (10 * acc + digitVal d) rest2 else none
    else none

/-- Digit run of Python int: at least one digit, then `pyDigitsAux`. -/
def pyDigits : List Char → Option Nat
  | [] => none
  | c :: rest => if isDigitChar c then pyDigitsAux (digitVal c) rest else none

/-- Python int(str) on the ASCII fragment: strip whitespace, one optional
sign, a nonempty digit run (with the underscore rule). Returns none where
Python raises ValueError. -/
def pyInt (cs : List Char) : Option Int :=
  match pyStrip cs with
  | [] => none
  | c :: rest =>
    if c = '+' then (pyDigits rest).map (fun n => (n : Int))
    else if c = '-' then (pyDigits rest).map (fun n => -(n : Int))
    else (pyDigits (c :: rest)).map (fun n => (n : Int))

/-- Pydantic construction of a ResourceField (resource_field_model.py):
level must lie in [0,10] and position in [1,18] (the Field ge/le bounds);
culture_points_per_hour defaults to 0 and is never passed by the engine. -/
def mkResourceField (t : ResourceType) (level : Int) (position : Int) :
    Except VilError ResourceField :=
  if 0 ≤ level ∧ level ≤ 10 then
    if 1 ≤ position ∧ position ≤ 18 then
      .ok ⟨t, level.toNat, position.toNat, 0⟩
    else .error .invalidField
  else .error .invalidField

/-- The building_id pattern of building_model.py: the regex g followed by
one or more digits, anchored at both ends. -/
def matches_building_id (s : String) : Bool :=
  match s.data with
  | 'g' :: rest => !rest.isEmpty && rest.all isDigitChar
  | _ => false

/-- Pydantic construction of a VillageBuilding (building_model.py):
building_id must match the g-digits pattern, level lie in [0,25], position
in [19,40]; singleton defaults to False and no caller of the engine ever
passes it. -/
def mkVillageBuilding (building_id : String) (building_name : String)
    (level : Int) (position : Int) : Except VilError VillageBuilding :=
  if matches_building_id building_id then
    if 0 ≤ level ∧ level ≤ 25 then
      if 19 ≤ position ∧ position ≤ 40 then
        .ok ⟨building_id, building_name, level.toNat, position.toNat, false⟩
      else .error .invalidBuilding
    else .error .invalidBuilding
  else .error .invalidBuilding

/-- The base_rates dict of ResourceField.base_production_per_hour: every
resource type maps to 30. -/
def base_rates : ResourceType → Nat
  | .wood => 30
  | .clay => 30
  | .iron => 30
  | .crop => 30

/-- ResourceField.base_production_per_hour (resource_field_model.py):
0 at level 0, otherwise int(base * level * 1.5 ** (level - 1)). For the
representable levels the float computation is exact (see the header), so it
equals the floor of the rational base * level * (3/2) ** (level - 1),
written here with natural division. -/
def ResourceField.base_production_per_hour (f : ResourceField) : Nat :=
  if f.level = 0 then 0
  else base_rates f.field_type * f.level * 3 ^ (f.level - 1) / 2 ^ (f.level - 1)

/-- One trailing newline removed, none otherwise: the Python regex anchor
used by the validator matches at the end of the string and also just
before one final newline, so an anchored pattern accepts exactly the
strings whose one-trailing-newline strip it accepts at the true end. -/
def stripTrailingNewline (cs : List Char) : List Char :=
  if cs.getLast? = some '\n' then cs.dropLast else cs

/-- The village_type field validator of Village (village_model.py
validate_village_type): the string must match the anchored regex of four
dash separated nonempty digit runs (the dollar anchor of Python re also
matching just before one final newline, modelled by stripping one trailing
newline first); their values must number four (always true after the
regex), sum to 18, and each be at least 1 (the int() calls of the
validator run on the dash-split parts of the original string, and strip
that same trailing whitespace, so they yield the digit-run values). -/
def validate_village_type (s : String) : Bool :=
  match pySplit (stripTrailingNewline s.data) '-' with
  | [a, b, c, d] =>
    !a.isEmpty && a.all isDigitChar && !b.isEmpty && b.all isDigitChar &&
    !c.isEmpty && c.all isDigitChar && !d.isEmpty && d.all isDigitChar &&
    (digitsToNat a + digitsToNat b + digitsToNat c + digitsToNat d == 18) &&
    (1 ≤ digitsToNat a) && (1 ≤ digitsToNat b) && (1 ≤ digitsToNat c) && (1 ≤ digitsToNat d)
  | _ => false

/-- The resource_fields field validator of Village (village_model.py
validate_resource_fields): exactly 18 fields, and the set of their
positions equals the set 1..18 (checked as mutual containment, as set
equality is). -/
def validate_resource_fields (fields : List ResourceField) : Bool :=
  fields.length == 18 &&
  (let positions := fields.map (·.position)
   (List.range' 1 18).all (fun p => positions.contains p) &&
   positions.all (fun p => (List.range' 1 18).contains p))

/-- Pydantic construction of a Village (village_model.py): runs the
village_type validator and the resource_fields validator; the field and
building values are already validated instances. -/
def mkVillage (village_type : String) (capital : Bool)
    (resource_fields : List ResourceField) (buildings : List VillageBuilding) :
    Except VilError Village :=
  if validate_village_type village_type then
    if validate_resource_fields resource_fields then
      .ok ⟨village_type, capital, resource_fields, buildings⟩
    else .error .invalidResourceFields
  else .error .invalidVillageType

/-- The list comprehension of parse_village_type: int() every part, the
first failure aborting the whole comprehension. -/
def pyIntList : List (List Char) → Option (List Int)
  | [] => some []
  | cs :: rest =>
    match pyInt cs with
    | none => none
    | some v =>
      match pyIntList rest with
      | none => none
      | some vs => some (v :: vs)

/-- village_factory.py parse_village_type: int() each dash-separated part
(a failure of any int() is caught and re-raised as the invalid-type error),
then check arity 4, sum 18, and positivity; on success the four counts are
returned in wood, clay, iron, crop order. -/
def parse_village_type (s : String) : Except VilError (List Int) :=
  match pyIntList (pySplit s.data '-') with
  | none => .error .invalidVillageType
  | some parts =>
    if parts.length ≠ 4 then .error .invalidVillageType
    else if parts.sum ≠ 18 then .error .invalidVillageType
    else if parts.any (fun x => x < 1) then .error .invalidVillageType
    else .ok parts

/-- The inner loop of village_factory.py create_resource_fields: append
count fields of one resource type at consecutive positions, each built by
the pydantic constructor at level 0. -/
def allocFields (t : ResourceType) : Nat → Int → Except VilError (List ResourceField)
  | 0, _ => .ok []
  | n + 1, position =>
    match mkResourceField t 0 position with
    | .error e => .error e
    | .ok f =>
      match allocFields t n (position + 1) with
      | .error e => .error e
      | .ok fs => .ok (f :: fs)

/-- The outer loop of create_resource_fields: run through the resource
order with the running position counter. -/
def allocRun : List (ResourceType × Nat) → Int → Except VilError (List ResourceField)
  | [], _ => .ok []
  | (t, n) :: rest, position =>
    match allocFields t n position with
    | .error e => .error e
    | .ok fs =>
      match allocRun rest (position + (n : Int)) with
      | .error e => .error e
      | .ok gs => .ok (fs ++ gs)

/-- village_factory.py create_resource_fields: parse the type string, then
allocate the counted fields in wood, clay, iron, crop order at positions
starting from 1. -/
def create_resource_fields (s : String) : Except VilError (List ResourceField) :=
  match parse_village_type s with
  | .error e => .error e
  | .ok [a, b, c, d] =>
    allocRun [(.wood, a.toNat), (.clay, b.toNat), (.iron, c.toNat), (.crop, d.toNat)] 1
  | .ok _ => .error .invalidVillageType

/-- village_factory.py create_default_buildings: the one seeded building,
Main Building g15 at level 1, position 19, built by the pydantic
constructor. -/
def create_default_buildings : Except VilError (List VillageBuilding) :=
  match mkVillageBuilding "g15" "Main Building" 1 19 with
  | .error e => .error e
  | .ok b => .ok [b]

/-- village_factory.py create_village_from_type: build the fields and the
default buildings, then construct the Village model (capital defaults to
False). -/
def create_village_from_type (s : String) : Except VilError Village :=
  match create_resource_fields s with
  | .error e => .error e
  | .ok fields =>
    match create_default_buildings with
    | .error e => .error e
    | .ok bs => mkVillage s false fields bs

/-- The occupied_positions list of Village.add_building and
Village.get_valid_actions: the positions of the existing buildings, as
Python ints. -/
def occupied_positions (v : Village) : List Int :=
  v.buildings.map (fun b => (b.position : Int))

/-- Village.add_building (village_model.py lines 132..149): reject an
occupied position, then a position outside [19,40], then construct the
building (which can itself fail pydantic validation) and append it. The
returned pair is the state of the building list after the call together
with the failure, mirroring that the Python method mutates in place and
that the append is the final statement. -/
def Village.add_building (v : Village) (building_id : String) (building_name : String)
    (level : Int) (position : Int) : Village × Option VilError :=
  if (occupied_positions v).contains position then (v, some .positionOccupied)
  else if ¬(19 ≤ position ∧ position ≤ 40) then (v, some .positionOutOfRange)
  else
    match mkVillageBuilding building_id building_name level position with
    | .error e => (v, some e)
    | .ok b => ({ v with buildings := v.buildings ++ [b] }, none)

/-- The per-field branch of Village.get_valid_actions (village_model.py
lines 172..188): a field at level 0 gives a BuildResourceField with
target_level level+1, a field below the cap (10, or 20 for a capital) an
UpgradeResourceField with target_level level+1, a field at the cap
nothing. -/
def field_action (capital : Bool) (f : ResourceField) : List ActionItem :=
  let max_resource_level : Nat := if ¬capital then 10 else 20
  if f.level = 0 then
    [ActionItem.buildResourceField f.position f.field_type (f.level + 1)]
  else if f.level < max_resource_level then
    [ActionItem.upgradeResourceField f.position f.field_type (f.level + 1)]
  else []

/-- The f-string of village_model.py line 207, built from the same
building attributes. -/
def upgrade_message (b : VillageBuilding) : String :=
  "Upgrade " ++ b.building_name ++ " (ID: " ++ b.building_id ++ ") at position " ++
    toString b.position ++ " from level " ++ toString b.level ++ " to " ++
    toString (b.level + 1)

/-- Village.get_valid_actions (village_model.py lines 165..209): the field
actions in field order, then a placeholder BuildBuildingAction with
building_id Empty and target_level 1 for every vacant position of
range(19, 41), then, for every building below level 25, the formatted
upgrade message string the source appends in place of an action object. -/
def Village.get_valid_actions (v : Village) : List ActionItem :=
  v.resource_fields.flatMap (field_action v.capital)
  ++ ((List.range' 19 22).filter
      (fun (p : Nat) => !(occupied_positions v).contains ((p : Nat) : Int))).map
    (fun (p : Nat) => ActionItem.buildBuildingAction p "Empty" 1)
  ++ v.buildings.filterMap (fun b =>
    if b.level < 25 then some (ActionItem.strMessage (upgrade_message b)) else none)

/-- Building effects record, from data_pipeline/data_models.py (class
BuildingEffects). The numeric payloads (Python floats and ints) are an
arbitrary type `α`, since `has_effects` never inspects a numeric value,
only presence: production_bonus is an optional mapping, the nine other
named fields optional scalars, other_effects a mapping. -/
structure BuildingEffects (α : Type) where
  production_bonus : Option (List (String × α))
  storage_capacity : Option α
  population_bonus : Option α
  training_time_reduction : Option α
  build_time_reduction : Option α
  build_cost_reduction : Option α
  offensive_bonus : Option α
  defensive_bonus : Option α
  merchant_capacity : Option α
  culture_points_bonus : Option α
  other_effects : List (String × α)
deriving DecidableEq, Repr

/-- BuildingEffects.has_effects, transcribed from the source any([...])
list: the first entry is the Python truthiness of production_bonus itself
(None and the empty dict are both falsy), the next nine are explicit
is-not-None tests, the last is bool(other_effects). -/
def BuildingEffects.has_effects {α : Type} (e : BuildingEffects α) : Bool :=
  (match e.production_bonus with
   | some l => !l.isEmpty
   | none => false) ||
  e.storage_capacity.isSome ||
  e.population_bonus.isSome ||
  e.training_time_reduction.isSome ||
  e.build_time_reduction.isSome ||
  e.build_cost_reduction.isSome ||
  e.offensive_bonus.isSome ||
  e.defensive_bonus.isSome ||
  e.merchant_capacity.isSome ||
  e.culture_points_bonus.isSome ||
  !e.other_effects.isEmpty

/-- The reading of has_effects the spec states: true iff at least one named
field is set (is not None) or other_effects is non-empty. Declared only to
be compared against the transcription above. -/
def BuildingEffects.has_effects_claimed {α : Type} (e : BuildingEffects α) : Bool :=
  e.production_bonus.isSome ||
  e.storage_capacity.isSome ||
  e.population_bonus.isSome ||
  e.training_time_reduction.isSome ||
  e.build_time_reduction.isSome ||
  e.build_cost_reduction.isSome ||
  e.offensive_bonus.isSome ||
  e.defensive_bonus.isSome ||
  e.merchant_capacity.isSome ||
  e.culture_points_bonus.isSome ||
  !e.other_effects.isEmpty

/-- A building effects value whose production_bonus is the empty mapping
(set, but falsy in Python) and whose every other field is absent. -/
def emptyBonusEffects : BuildingEffects Int :=
  ⟨some [], none, none, none, none, none, none, none, none, none, []⟩

/-- Failure outcomes of the game-state transitions, named as in the spec. -/
inductive StateError where
  | noConstructionsPending
  | invalidTimestamp
deriving DecidableEq, Repr

/-- A pending construction, from game_engine/data_models/game_state.py
(class BuildingConstruction); the datetime completion_time is a timestamp
modelled as Int, the resource_cost dict as an association list. -/
structure BuildingConstruction where
  building_position : Nat
  target_level : Nat
  completion_time : Int
  resource_cost : List (String × Int)
deriving DecidableEq, Repr

/-- The game state, from game_state.py (class GameState): the declared
attributes, with datetime as an Int timestamp and dicts as association
lists. -/
structure GameState where
  current_time : Int
  village_resources : List (String × Int)
  hero_resources : List (String × Int)
  resource_production_per_hour : List (String × Int)
  buildings : List VillageBuilding
  constructions_in_progress : List BuildingConstruction
deriving DecidableEq, Repr

/-- The pending construction with the earliest completion_time (the first
such on ties), or none when the pending set is empty. -/
def earliestConstruction : List BuildingConstruction → Option BuildingConstruction
  | [] => none
  | c :: rest =>
    match earliestConstruction rest with
    | none => some c
    | some d => some (if c.completion_time ≤ d.completion_time then c else d)

/-- Linear resource accrual over an elapsed interval at the hourly rates in
effect, one entry per resource name of the stock (a name missing from the
rate table accrues nothing). -/
def accrueResources (stock : List (String × Int))
    (rates : List (String × Int)) (elapsed : Int) : List (String × Int) :=
  stock.map (fun kv =>
    match rates.find? (fun rv => rv.1 == kv.1) with
    | some rv => (kv.1, kv.2 + rv.2 * elapsed)
    | none => kv)

/-- Set the building at the completed construction position to its target
level. -/
def applyConstruction (bs : List VillageBuilding) (c : BuildingConstruction) :
    List VillageBuilding :=
  bs.map (fun b => if b.position = c.building_position then { b with level := c.target_level } else b)

/-- Modelled from the spec: the body of GameState.advance_to_next_event is
missing from the source (game_state.py lines 19..22 hold only the comments
order events / retrieve and pop event from queue above a bare pass), so the
transition is modelled from section 4.4 of the spec: pop the pending
construction with the earliest completion_time, advance current_time to
that instant, apply linear resource accrual for the elapsed interval at the
production rate in effect, apply the construction, and fail with
NoConstructionsPending when the pending set is empty. The declared
GameState carries no resource_caps attribute, so the cap clamp of the spec
has nothing to clamp against and is not modelled. Elapsed time is kept in
hours so that accrual is rate times elapsed. -/
def GameState.advance_to_next_event (s : GameState) : Except StateError GameState :=
  match earliestConstruction s.constructions_in_progress with
  | none => .error .noConstructionsPending
  | some c =>
    .ok { s with
          current_time := c.completion_time,
          village_resources := accrueResources s.village_resources
            s.resource_production_per_hour (c.completion_time - s.current_time),
          buildings := applyConstruction s.buildings c,
          constructions_in_progress := s.constructions_in_progress.erase c }

/-- Villages reachable through the public construction surface: a village
freshly created from a type string, or a reachable village after a
successful add_building call. -/
inductive Reachable : Village → Prop where
  | created (s : String) (v : Village) :
      create_village_from_type s = .ok v → Reachable v
  | added (v : Village) (id name : String) (level position : Int) (v2 : Village) :
      Reachable v → v.add_building id name level position = (v2, none) → Reachable v2

/-- The Main Building as seeded by create_default_buildings. -/
def mainBuilding : VillageBuilding :=
  ⟨"g15", "Main Building", 1, 19, false⟩

/-- The village produced by create_village_from_type on the starting layout
4-4-4-6, written out for use as a concrete input of witnesses. -/
def freshVillage : Village :=
  ⟨"4-4-4-6", false,
   [⟨.wood, 0, 1, 0⟩, ⟨.wood, 0, 2, 0⟩, ⟨.wood, 0, 3, 0⟩, ⟨.wood, 0, 4, 0⟩,
    ⟨.clay, 0, 5, 0⟩, ⟨.clay, 0, 6, 0⟩, ⟨.clay, 0, 7, 0⟩, ⟨.clay, 0, 8, 0⟩,
    ⟨.iron, 0, 9, 0⟩, ⟨.iron, 0, 10, 0⟩, ⟨.iron, 0, 11, 0⟩, ⟨.iron, 0, 12, 0⟩,
    ⟨.crop, 0, 13, 0⟩, ⟨.crop, 0, 14, 0⟩, ⟨.crop, 0, 15, 0⟩, ⟨.crop, 0, 16, 0⟩,
    ⟨.crop, 0, 17, 0⟩, ⟨.crop, 0, 18, 0⟩],
   [mainBuilding]⟩

/-- The fresh village with a second Main Building added at position 20. -/
def twoMainVillage : Village :=
  { freshVillage with buildings := freshVillage.buildings ++ [⟨"g15", "Main Building", 1, 20, false⟩] }

deriving instance DecidableEq for Except

/-! Helper lemmas about the Python string fragment. -/

/-- A digit character is not a whitespace character. -/
theorem isPySpace_of_digit {c : Char} (h : isDigitChar c = true) : isPySpace c = false := by
  simp only [isDigitChar, Bool.and_eq_true, decide_eq_true_eq] at h
  simp only [isPySpace, Bool.or_eq_false_iff, decide_eq_false_iff_not]
  omega

/-- Stripping whitespace from an all-digit run is the identity. -/
theorem pyStrip_digits {cs : List Char} (h : cs.all isDigitChar = true) : pyStrip cs = cs := by
  have h1 : ∀ (l : List Char), l.all isDigitChar = true → l.dropWhile isPySpace = l := by
    intro l hl
    cases l with
    | nil => rfl
    | cons c rest =>
      rw [List.dropWhile_cons]
      simp only [List.all_cons, Bool.and_eq_true] at hl
      rw [isPySpace_of_digit hl.1]
      simp
  have h2 : cs.reverse.all isDigitChar = true := by
    rw [List.all_eq_true] at h ⊢
    intro c hc
    exact h c (List.mem_reverse.mp hc)
  rw [pyStrip, h1 cs h, h1 cs.reverse h2, List.reverse_reverse]

/-- The digit scanner on an all-digit run folds the digits onto the
accumulator. -/
theorem pyDigitsAux_digits (cs : List Char) (acc : Nat) (h : cs.all isDigitChar = true) :
    pyDigitsAux acc cs = some (cs.foldl (fun a c => 10 * a + digitVal c) acc) := by
  induction cs generalizing acc with
  | nil => rfl
  | cons c rest ih =>
    simp only [List.all_cons, Bool.and_eq_true] at h
    rw [pyDigitsAux.eq_def]
    simp only [if_pos h.1]
    rw [ih _ h.2, List.foldl_cons]

/-- Python int on a nonempty all-digit run returns its decimal value. -/
theorem pyInt_digits {cs : List Char} (hne : cs ≠ []) (h : cs.all isDigitChar = true) :
    pyInt cs = some ((digitsToNat cs : Nat) : Int) := by
  rw [pyInt, pyStrip_digits h]
  cases cs with
  | nil => exact absurd rfl hne
  | cons c rest =>
    simp only [List.all_cons, Bool.and_eq_true] at h
    have hc := h.1
    have hcplus : ¬(c = '+') := by
      intro hrw
      rw [hrw] at hc
      simp [isDigitChar] at hc
    have hcminus : ¬(c = '-') := by
      intro hrw
      rw [hrw] at hc
      simp [isDigitChar] at hc
    simp only [if_neg hcplus, if_neg hcminus]
    simp only [pyDigits, if_pos hc]
    rw [pyDigitsAux_digits rest _ h.2, digitsToNat, List.foldl_cons]
    norm_num

/-! Helper lemmas about the factory. -/

/-- A list of length four is an explicit four-element list. -/
theorem list_length_four {α : Type} {l : List α} (h : l.length = 4) :
    ∃ a b c d : α, l = [a, b, c, d] := by
  match l, h with
  | [a, b, c, d], _ => exact ⟨a, b, c, d, rfl⟩

/-- When the positions fit inside [1,18], the field allocation loop
succeeds and produces fields of the one type, at the consecutive
positions, at level 0. -/
theorem allocFields_spec (t : ResourceType) (n : Nat) (position : Int)
    (h1 : 1 ≤ position) (h2 : position + n ≤ 19) :
    ∃ fs, allocFields t n position = .ok fs ∧
      fs.map (·.field_type) = List.replicate n t ∧
      fs.map (·.position) = List.range' position.toNat n ∧
      (∀ f ∈ fs, f.level = 0) ∧
      fs.length = n := by
  induction n generalizing position with
  | zero => exact ⟨[], rfl, rfl, rfl, by simp, rfl⟩
  | succ n ih =>
    have hmk : mkResourceField t 0 position = .ok ⟨t, 0, position.toNat, 0⟩ := by
      rw [mkResourceField, if_pos (by omega), if_pos (by constructor <;> omega)]
      simp
    obtain ⟨fs, hok, hty, hpos, hlev, hlen⟩ := ih (position + 1) (by omega) (by push_cast at h2 ⊢; omega)
    refine ⟨⟨t, 0, position.toNat, 0⟩ :: fs, ?_, ?_, ?_, ?_, ?_⟩
    · rw [allocFields, hmk, hok]
    · simp [hty, List.replicate_succ]
    · rw [List.map_cons, hpos, List.range'_succ]
      have hpt : (position + 1).toNat = position.toNat + 1 := by omega
      rw [hpt]
    · intro f hf
      rcases List.mem_cons.mp hf with hf2 | hf2
      · rw [hf2]
      · exact hlev _ hf2
    · simp [hlen]

/-- Postcondition of a successful parse_village_type: four counts, summing
to 18, each at least 1. -/
theorem parse_village_type_ok {s : String} {vs : List Int}
    (h : parse_village_type s = .ok vs) :
    ∃ a b c d : Int, vs = [a, b, c, d] ∧ a + b + c + d = 18 ∧
      1 ≤ a ∧ 1 ≤ b ∧ 1 ≤ c ∧ 1 ≤ d := by
  rw [parse_village_type] at h
  rcases hint : pyIntList (pySplit s.data '-') with _ | parts
  · rw [hint] at h
    exact Except.noConfusion h
  · simp only [hint] at h
    by_cases h4 : parts.length ≠ 4
    · rw [if_pos h4] at h
      exact Except.noConfusion h
    rw [if_neg h4] at h
    by_cases hsum : parts.sum ≠ 18
    · rw [if_pos hsum] at h
      exact Except.noConfusion h
    rw [if_neg hsum] at h
    by_cases hany : parts.any (fun x => x < 1) = true
    · rw [if_pos hany] at h
      exact Except.noConfusion h
    rw [if_neg hany] at h
    injection h with hvs
    subst hvs
    obtain ⟨a, b, c, d, hl⟩ := list_length_four (not_not.mp h4)
    subst hl
    have hsum2 : a + b + c + d = 18 := by
      have h18 := not_not.mp hsum
      simp only [List.sum_cons, List.sum_nil] at h18
      omega
    simp only [List.any_cons, List.any_nil, Bool.or_eq_true, decide_eq_true_eq] at hany
    exact ⟨a, b, c, d, rfl, hsum2, by omega, by omega, by omega, by omega⟩

/-- Every failure of parse_village_type carries the invalid-type error. -/
theorem parse_village_type_error {s : String} {e : VilError}
    (h : parse_village_type s = .error e) : e = .invalidVillageType := by
  rw [parse_village_type] at h
  rcases hint : pyIntList (pySplit s.data '-') with _ | parts
  · rw [hint] at h
    injection h with he
    exact he.symm
  · simp only [hint] at h
    by_cases h4 : parts.length ≠ 4
    · rw [if_pos h4] at h
      injection h with he
      exact he.symm
    rw [if_neg h4] at h
    by_cases hsum : parts.sum ≠ 18
    · rw [if_pos hsum] at h
      injection h with he
      exact he.symm
    rw [if_neg hsum] at h
    by_cases hany : parts.any (fun x => x < 1) = true
    · rw [if_pos hany] at h
      injection h with he
      exact he.symm
    · rw [if_neg hany] at h
      exact Except.noConfusion h

/-- Consecutive ranges concatenate. -/
theorem range'_glue (s m n : Nat) :
    List.range' s m ++ List.range' (s + m) n = List.range' s (m + n) := by
  induction m generalizing s with
  | zero => simp
  | succ m ih =>
    rw [show m + 1 + n = (m + n) + 1 by omega, List.range'_succ, List.range'_succ,
      List.cons_append, show s + (m + 1) = (s + 1) + m by omega, ih]

/-- The full allocation run of create_resource_fields on four counts that
sum to 18, each positive: succeeds, types grouped in wood, clay, iron,
crop order, positions exactly 1..18 in order, all levels 0. -/
theorem allocRun_spec {a b c d : Int} (hsum : a + b + c + d = 18)
    (ha : 1 ≤ a) (hb : 1 ≤ b) (hc : 1 ≤ c) (hd : 1 ≤ d) :
    ∃ fields,
      allocRun [(.wood, a.toNat), (.clay, b.toNat), (.iron, c.toNat), (.crop, d.toNat)] 1 = .ok fields ∧
      fields.map (·.field_type) =
        List.replicate a.toNat .wood ++ List.replicate b.toNat .clay ++
        List.replicate c.toNat .iron ++ List.replicate d.toNat .crop ∧
      fields.map (·.position) = List.range' 1 18 ∧
      (∀ f ∈ fields, f.level = 0) ∧
      fields.length = 18 := by
  obtain ⟨f1, h1ok, h1ty, h1pos, h1lev, h1len⟩ :=
    allocFields_spec .wood a.toNat 1 (by omega) (by omega)
  obtain ⟨f2, h2ok, h2ty, h2pos, h2lev, h2len⟩ :=
    allocFields_spec .clay b.toNat (1 + (a.toNat : Int)) (by omega) (by omega)
  obtain ⟨f3, h3ok, h3ty, h3pos, h3lev, h3len⟩ :=
    allocFields_spec .iron c.toNat (1 + (a.toNat : Int) + (b.toNat : Int)) (by omega) (by omega)
  obtain ⟨f4, h4ok, h4ty, h4pos, h4lev, h4len⟩ :=
    allocFields_spec .crop d.toNat (1 + (a.toNat : Int) + (b.toNat : Int) + (c.toNat : Int))
      (by omega) (by omega)
  refine ⟨f1 ++ (f2 ++ (f3 ++ (f4 ++ []))), ?_, ?_, ?_, ?_, ?_⟩
  · rw [allocRun, h1ok, allocRun, show (1 : Int) + (a.toNat : Int) = 1 + (a.toNat : Int) from rfl,
      h2ok, allocRun, show (1 : Int) + (a.toNat : Int) + (b.toNat : Int) = 1 + (a.toNat : Int) + (b.toNat : Int) from rfl,
      h3ok, allocRun, h4ok, allocRun]
  · simp only [List.map_append, h1ty, h2ty, h3ty, h4ty, List.map_nil, List.append_nil,
      List.append_assoc]
  · simp only [List.map_append, h1pos, h2pos, h3pos, h4pos, List.map_nil, List.append_nil]
    rw [show ((1 : Int)).toNat = 1 from rfl,
      show ((1 : Int) + (a.toNat : Int)).toNat = 1 + a.toNat by omega,
      show ((1 : Int) + (a.toNat : Int) + (b.toNat : Int)).toNat = (1 + a.toNat) + b.toNat by omega,
      show ((1 : Int) + (a.toNat : Int) + (b.toNat : Int) + (c.toNat : Int)).toNat
        = ((1 + a.toNat) + b.toNat) + c.toNat by omega,
      range'_glue, range'_glue, range'_glue]
    congr 1
    omega
  · intro f hf
    simp only [List.mem_append, List.not_mem_nil, or_false] at hf
    rcases hf with hf | hf | hf | hf
    · exact h1lev _ hf
    · exact h2lev _ hf
    · exact h3lev _ hf
    · exact h4lev _ hf
  · simp only [List.length_append, h1len, h2len, h3len, h4len, List.length_nil]
    omega

/-- Inversion of a successful Village construction: the model holds the
given attributes and both validators passed. -/
theorem mkVillage_ok {s : String} {cap : Bool} {fs : List ResourceField}
    {bs : List VillageBuilding} {v : Village}
    (h : mkVillage s cap fs bs = .ok v) :
    v = ⟨s, cap, fs, bs⟩ ∧ validate_village_type s = true ∧
      validate_resource_fields fs = true := by
  rw [mkVillage] at h
  by_cases h1 : validate_village_type s = true
  · rw [if_pos h1] at h
    by_cases h2 : validate_resource_fields fs = true
    · rw [if_pos h2] at h
      injection h with hv
      exact ⟨hv.symm, h1, h2⟩
    · rw [if_neg h2] at h
      exact Except.noConfusion h
  · rw [if_neg h1] at h
    exact Except.noConfusion h

/-- A field list whose positions are exactly 1..18 in order passes the
resource-fields validator. -/
theorem validate_resource_fields_of_range {fs : List ResourceField}
    (hpos : fs.map (·.position) = List.range' 1 18) (hlen : fs.length = 18) :
    validate_resource_fields fs = true := by
  simp only [validate_resource_fields, hpos, hlen]
  decide

/-- The seeded building list evaluates to the Main Building alone. -/
theorem create_default_buildings_eq : create_default_buildings = .ok [mainBuilding] := by
  decide

/-- Structure of every village returned by create_village_from_type: the
parsed counts exist, the fields are grouped by type in wood, clay, iron,
crop order at positions 1..18 with level 0, and the buildings are exactly
the seeded Main Building. -/
theorem create_ok_struct {s : String} {v : Village}
    (h : create_village_from_type s = .ok v) :
    ∃ (a b c d : Int) (fields : List ResourceField),
      parse_village_type s = .ok [a, b, c, d] ∧
      a + b + c + d = 18 ∧ 1 ≤ a ∧ 1 ≤ b ∧ 1 ≤ c ∧ 1 ≤ d ∧
      v = ⟨s, false, fields, [mainBuilding]⟩ ∧
      fields.map (·.field_type) =
        List.replicate a.toNat .wood ++ List.replicate b.toNat .clay ++
        List.replicate c.toNat .iron ++ List.replicate d.toNat .crop ∧
      fields.map (·.position) = List.range' 1 18 ∧
      (∀ f ∈ fields, f.level = 0) ∧
      fields.length = 18 ∧
      validate_village_type s = true := by
  rw [create_village_from_type] at h
  rcases hcf : create_resource_fields s with e | fields
  · rw [hcf] at h
    exact Except.noConfusion h
  · rw [hcf, create_default_buildings_eq] at h
    obtain ⟨hv, hvt, _⟩ := mkVillage_ok h
    rw [create_resource_fields] at hcf
    rcases hp : parse_village_type s with e | vs
    · rw [hp] at hcf
      exact Except.noConfusion hcf
    · obtain ⟨a, b, c, d, hvs, hsum, ha, hb, hc2, hd⟩ := parse_village_type_ok hp
      subst hvs
      simp only [hp] at hcf
      obtain ⟨fields2, hok2, hty2, hpos2, hlev2, hlen2⟩ := allocRun_spec hsum ha hb hc2 hd
      rw [hok2] at hcf
      injection hcf with hfe
      subst hfe
      exact ⟨a, b, c, d, fields2, rfl, hsum, ha, hb, hc2, hd, hv, hty2, hpos2, hlev2, hlen2, hvt⟩

/-- The int comprehension on a list of nonempty all-digit runs returns
their decimal values. -/
theorem pyIntList_digits {ps : List (List Char)}
    (h : ∀ p ∈ ps, p ≠ [] ∧ p.all isDigitChar = true) :
    pyIntList ps = some (ps.map (fun p => ((digitsToNat p : Nat) : Int))) := by
  induction ps with
  | nil => rfl
  | cons p rest ih =>
    have hp := h p (List.mem_cons_self p rest)
    rw [pyIntList, pyInt_digits hp.1 hp.2,
      ih (fun q hq => h q (List.mem_cons_of_mem _ hq)), List.map_cons]

/-- Digit runs contain no whitespace, so the space-dropping scan keeps
them whole. -/
theorem dropWhile_space_of_digits {l : List Char} (h : l.all isDigitChar = true) :
    l.dropWhile isPySpace = l := by
  cases l with
  | nil => rfl
  | cons c rest =>
    rw [List.dropWhile_cons]
    simp only [List.all_cons, Bool.and_eq_true] at h
    rw [isPySpace_of_digit h.1]
    simp

/-- Stripping whitespace from a digit run followed by one newline leaves
the digit run: Python int accepts the trailing newline the anchored regex
tolerates. -/
theorem pyStrip_digits_newline {cs : List Char} (hne : cs ≠ []) (h : cs.all isDigitChar = true) :
    pyStrip (cs ++ ['\n']) = cs := by
  have h1 : (cs ++ ['\n']).dropWhile isPySpace = cs ++ ['\n'] := by
    cases cs with
    | nil => exact absurd rfl hne
    | cons c rest =>
      rw [List.cons_append, List.dropWhile_cons]
      simp only [List.all_cons, Bool.and_eq_true] at h
      rw [isPySpace_of_digit h.1]
      simp
  have h2 : cs.reverse.all isDigitChar = true := by
    rw [List.all_eq_true] at h ⊢
    intro c hc
    exact h c (List.mem_reverse.mp hc)
  rw [pyStrip, h1, List.reverse_append]
  simp only [List.reverse_cons, List.reverse_nil, List.nil_append, List.singleton_append]
  rw [List.dropWhile_cons]
  rw [show isPySpace '\n' = true from rfl]
  simp only [if_true]
  rw [dropWhile_space_of_digits h2, List.reverse_reverse]

/-- Python int on a nonempty all-digit run followed by one newline returns
the decimal value of the run. -/
theorem pyInt_trailing_newline {cs : List Char} (hne : cs ≠ []) (h : cs.all isDigitChar = true) :
    pyInt (cs ++ ['\n']) = some ((digitsToNat cs : Nat) : Int) := by
  rw [pyInt, pyStrip_digits_newline hne h]
  cases cs with
  | nil => exact absurd rfl hne
  | cons c rest =>
    simp only [List.all_cons, Bool.and_eq_true] at h
    have hc := h.1
    have hcplus : ¬(c = '+') := by
      intro hrw
      rw [hrw] at hc
      simp [isDigitChar] at hc
    have hcminus : ¬(c = '-') := by
      intro hrw
      rw [hrw] at hc
      simp [isDigitChar] at hc
    simp only [if_neg hcplus, if_neg hcminus]
    simp only [pyDigits, if_pos hc]
    rw [pyDigitsAux_digits rest _ h.2, digitsToNat, List.foldl_cons]
    norm_num

/-- Appending one non-separator character to a string appends it to the
last part of its split. -/
theorem pySplit_snoc (xs : List Char) (c sep : Char) (h : ¬(c = sep)) :
    ∃ ps p, pySplit xs sep = ps ++ [p] ∧ pySplit (xs ++ [c]) sep = ps ++ [p ++ [c]] := by
  induction xs with
  | nil =>
    refine ⟨[], [], rfl, ?_⟩
    simp only [List.nil_append]
    simp only [pySplit, if_neg h]
  | cons x xs ih =>
    obtain ⟨ps, p, h1, h2⟩ := ih
    by_cases hx : x = sep
    · refine ⟨[] :: ps, p, ?_, ?_⟩
      · simp only [pySplit, if_pos hx, h1]
        rfl
      · rw [List.cons_append]
        simp only [pySplit, if_pos hx, h2]
        rfl
    · cases ps with
      | nil =>
        simp only [List.nil_append] at h1 h2
        refine ⟨[], x :: p, ?_, ?_⟩
        · simp only [pySplit, if_neg hx, h1]
          rfl
        · rw [List.cons_append]
          simp only [pySplit, if_neg hx, h2]
          simp
      | cons q qs =>
        simp only [List.cons_append] at h1 h2
        refine ⟨(x :: q) :: qs, p, ?_, ?_⟩
        · simp only [pySplit, if_neg hx, h1]
          rfl
        · rw [List.cons_append]
          simp only [pySplit, if_neg hx, h2]
          rfl

/-- A string accepted by the village-type validator parses successfully to
the decimal values of its four digit runs (found after removing the one
trailing newline the anchored regex tolerates; Python int strips that
newline itself, so the parse sees the same values). -/
theorem parse_of_validate {s : String} (h : validate_village_type s = true) :
    ∃ p1 p2 p3 p4 : List Char,
      pySplit (stripTrailingNewline s.data) '-' = [p1, p2, p3, p4] ∧
      parse_village_type s =
        .ok [((digitsToNat p1 : Nat) : Int), ((digitsToNat p2 : Nat) : Int),
             ((digitsToNat p3 : Nat) : Int), ((digitsToNat p4 : Nat) : Int)] ∧
      digitsToNat p1 + digitsToNat p2 + digitsToNat p3 + digitsToNat p4 = 18 ∧
      1 ≤ digitsToNat p1 ∧ 1 ≤ digitsToNat p2 ∧ 1 ≤ digitsToNat p3 ∧ 1 ≤ digitsToNat p4 := by
  rw [validate_village_type] at h
  rcases hsp : pySplit (stripTrailingNewline s.data) '-' with
    _ | ⟨p1, _ | ⟨p2, _ | ⟨p3, _ | ⟨p4, _ | ⟨p5, rest⟩⟩⟩⟩⟩ <;> rw [hsp] at h
  case nil => exact Bool.noConfusion h
  case cons.nil => exact Bool.noConfusion h
  case cons.cons.nil => exact Bool.noConfusion h
  case cons.cons.cons.nil => exact Bool.noConfusion h
  case cons.cons.cons.cons.cons => exact Bool.noConfusion h
  case cons.cons.cons.cons.nil =>
    simp only [Bool.and_eq_true, Bool.not_eq_true', List.isEmpty_eq_false, beq_iff_eq,
      decide_eq_true_eq] at h
    obtain ⟨⟨⟨⟨⟨⟨⟨⟨⟨⟨⟨⟨hne1, hd1⟩, hne2⟩, hd2⟩, hne3⟩, hd3⟩, hne4⟩, hd4⟩, hsum⟩, h1⟩, h2⟩, h3⟩, h4⟩ := h
    have hfinish : ∀ ps2 : List (List Char), pySplit s.data '-' = ps2 →
        pyIntList ps2 =
          some [((digitsToNat p1 : Nat) : Int), ((digitsToNat p2 : Nat) : Int),
                ((digitsToNat p3 : Nat) : Int), ((digitsToNat p4 : Nat) : Int)] →
        parse_village_type s =
          .ok [((digitsToNat p1 : Nat) : Int), ((digitsToNat p2 : Nat) : Int),
               ((digitsToNat p3 : Nat) : Int), ((digitsToNat p4 : Nat) : Int)] := by
      intro ps2 hps2 hil
      rw [parse_village_type, hps2]
      simp only [hil]
      rw [if_neg (by simp), if_neg (by
          simp only [List.sum_cons, List.sum_nil, add_zero]
          omega),
        if_neg (by
          simp only [List.any_cons, List.any_nil, Bool.or_eq_true, decide_eq_true_eq, or_false]
          push_neg
          refine ⟨by omega, by omega, by omega, by omega, by simp⟩)]
    refine ⟨p1, p2, p3, p4, rfl, ?_, hsum, h1, h2, h3, h4⟩
    by_cases hnl : s.data.getLast? = some '\n'
    · have hne0 : s.data ≠ [] := by
        intro hh
        rw [hh] at hnl
        exact Option.noConfusion hnl
      have hlast : s.data.getLast hne0 = '\n' := by
        have hgl := List.getLast?_eq_getLast s.data hne0
        rw [hgl] at hnl
        injection hnl with hl2
      have hsd : s.data.dropLast ++ ['\n'] = s.data := by
        conv_rhs => rw [← List.dropLast_append_getLast hne0]
        rw [hlast]
      have hstrip : stripTrailingNewline s.data = s.data.dropLast := by
        rw [stripTrailingNewline, if_pos hnl]
      rw [hstrip] at hsp
      obtain ⟨ps, p, hq1, hq2⟩ := pySplit_snoc s.data.dropLast '\n' '-' (by decide)
      rw [hsp] at hq1
      have hlen3 : ps.length = 3 := by
        have hlen4 := congrArg List.length hq1
        simp at hlen4
        omega
      obtain ⟨a1, a2, a3, hps⟩ : ∃ a1 a2 a3, ps = [a1, a2, a3] := by
        match ps, hlen3 with
        | [a1, a2, a3], _ => exact ⟨a1, a2, a3, rfl⟩
      subst hps
      simp only [List.cons_append, List.nil_append, List.cons.injEq, and_true] at hq1
      obtain ⟨e1, e2, e3, e4⟩ := hq1
      subst e1
      subst e2
      subst e3
      subst e4
      rw [hsd] at hq2
      simp only [List.cons_append, List.nil_append] at hq2
      have hil : pyIntList [p1, p2, p3, p4 ++ ['\n']] =
          some [((digitsToNat p1 : Nat) : Int), ((digitsToNat p2 : Nat) : Int),
                ((digitsToNat p3 : Nat) : Int), ((digitsToNat p4 : Nat) : Int)] := by
        simp only [pyIntList, pyInt_digits hne1 hd1, pyInt_digits hne2 hd2,
          pyInt_digits hne3 hd3, pyInt_trailing_newline hne4 hd4]
      exact hfinish _ hq2 hil
    · have hstrip : stripTrailingNewline s.data = s.data := by
        rw [stripTrailingNewline, if_neg hnl]
      rw [hstrip] at hsp
      have hil : pyIntList [p1, p2, p3, p4] =
          some [((digitsToNat p1 : Nat) : Int), ((digitsToNat p2 : Nat) : Int),
                ((digitsToNat p3 : Nat) : Int), ((digitsToNat p4 : Nat) : Int)] := by
        simp only [pyIntList, pyInt_digits hne1 hd1, pyInt_digits hne2 hd2,
          pyInt_digits hne3 hd3, pyInt_digits hne4 hd4]
      exact hfinish _ hsp hil

/-- A validated type string creates successfully. -/
theorem create_ok_of_validate {s : String} (h : validate_village_type s = true) :
    ∃ v, create_village_from_type s = .ok v := by
  obtain ⟨p1, p2, p3, p4, hsp, hparse, hsum, h1, h2, h3, h4⟩ := parse_of_validate h
  have hsum2 : ((digitsToNat p1 : Nat) : Int) + ((digitsToNat p2 : Nat) : Int) +
      ((digitsToNat p3 : Nat) : Int) + ((digitsToNat p4 : Nat) : Int) = 18 := by
    omega
  obtain ⟨fields, hok, hty, hpos, hlev, hlen⟩ :=
    allocRun_spec hsum2 (by exact_mod_cast h1) (by exact_mod_cast h2)
      (by exact_mod_cast h3) (by exact_mod_cast h4)
  have hcf : create_resource_fields s = .ok fields := by
    rw [create_resource_fields]
    simp only [hparse]
    exact hok
  refine ⟨⟨s, false, fields, [mainBuilding]⟩, ?_⟩
  rw [create_village_from_type]
  simp only [hcf, create_default_buildings_eq]
  rw [mkVillage, if_pos h, if_pos (validate_resource_fields_of_range hpos hlen)]

/-! Claim theorems. -/

/-- C6: village creation (create_village_from_type, which runs
parse_village_type and then the Village model validators) succeeds exactly
on the strings of four dash-separated positive decimal integers summing to
18, with at most one trailing newline tolerated (the condition transcribed
by validate_village_type: the dollar anchor of the Python pattern also
matches just before one final newline, and int() strips it), and every
failure carries the invalid-village-type error: a string that does not
parse, has the wrong arity, sums to other than 18, or contains a
non-positive count is rejected with that error. -/
theorem spec_c6_creation_validity (s : String) :
    ((create_village_from_type s).isOk = true ↔ validate_village_type s = true) ∧
    (∀ e, create_village_from_type s = .error e → e = .invalidVillageType) := by
  constructor
  · constructor
    · intro h
      rcases hc : create_village_from_type s with e | v
      · rw [hc] at h
        exact Bool.noConfusion h
      · obtain ⟨a, b, c, d, fields, _, _, _, _, _, _, _, _, _, _, _, hvt⟩ := create_ok_struct hc
        exact hvt
    · intro h
      obtain ⟨v, hv⟩ := create_ok_of_validate h
      rw [hv]
      rfl
  · intro e he
    rw [create_village_from_type] at he
    rcases hcf : create_resource_fields s with e1 | fields
    · rw [hcf] at he
      injection he with he2
      subst he2
      rw [create_resource_fields] at hcf
      rcases hp : parse_village_type s with e2 | vs
      · rw [hp] at hcf
        injection hcf with he3
        rw [he3] at hp
        exact parse_village_type_error hp
      · obtain ⟨a, b, c, d, hvs, hsum, ha, hb, hc2, hd⟩ := parse_village_type_ok hp
        subst hvs
        simp only [hp] at hcf
        obtain ⟨fields2, hok2, _, _, _, _⟩ := allocRun_spec hsum ha hb hc2 hd
        rw [hok2] at hcf
        exact Except.noConfusion hcf
    · simp only [hcf, create_default_buildings_eq] at he
      unfold mkVillage at he
      by_cases h1 : validate_village_type s = true
      · rw [if_pos h1] at he
        rw [create_resource_fields] at hcf
        rcases hp : parse_village_type s with e2 | vs
        · rw [hp] at hcf
          exact Except.noConfusion hcf
        · obtain ⟨a, b, c, d, hvs, hsum, ha, hb, hc2, hd⟩ := parse_village_type_ok hp
          subst hvs
          simp only [hp] at hcf
          obtain ⟨fields2, hok2, _, hpos2, _, hlen2⟩ := allocRun_spec hsum ha hb hc2 hd
          rw [hok2] at hcf
          injection hcf with hfe
          subst hfe
          rw [if_pos (validate_resource_fields_of_range hpos2 hlen2)] at he
          exact Except.noConfusion he
      · rw [if_neg h1] at he
        injection he with he2
        exact he2.symm

/-- Witness for C6 at concrete inputs: the 15-cropper string creates
successfully, the starting layout with one trailing newline also creates
successfully (the anchored regex and int() both tolerate it), and a
three-part string is rejected with the invalid-village-type error. -/
theorem spec_c6_creation_validity_witness :
    (create_village_from_type "1-1-1-15").isOk = true ∧
    (create_village_from_type "4-4-4-6\n").isOk = true ∧
    VilError.invalidVillageType = VilError.invalidVillageType :=
  ⟨(spec_c6_creation_validity "1-1-1-15").1.mpr (by decide),
   (spec_c6_creation_validity "4-4-4-6\n").1.mpr (by decide),
   (spec_c6_creation_validity "4-4-4").2 VilError.invalidVillageType (by decide)⟩

/-- C2: every village built by create_village_from_type has exactly 18
resource fields, their positions are 1..18 in order (so they form the set
1..18), the field types come grouped in wood, clay, iron, crop order with
the per-type counts equal to the parsed distribution, every field is at
level 0, and the buildings are exactly the seeded Main Building g15 at
level 1, position 19. -/
theorem spec_c2_created_village_structure {s : String} {v : Village}
    (h : create_village_from_type s = .ok v) :
    ∃ a b c d : Int,
      parse_village_type s = .ok [a, b, c, d] ∧
      v.resource_fields.length = 18 ∧
      v.resource_fields.map (·.position) = List.range' 1 18 ∧
      v.resource_fields.map (·.field_type) =
        List.replicate a.toNat .wood ++ List.replicate b.toNat .clay ++
        List.replicate c.toNat .iron ++ List.replicate d.toNat .crop ∧
      (∀ f ∈ v.resource_fields, f.level = 0) ∧
      v.buildings = [⟨"g15", "Main Building", 1, 19, false⟩] := by
  obtain ⟨a, b, c, d, fields, hp, hsum, ha, hb, hc2, hd, hv, hty, hpos, hlev, hlen, hvt⟩ :=
    create_ok_struct h
  subst hv
  exact ⟨a, b, c, d, hp, hlen, hpos, hty, hlev, rfl⟩

/-- Witness for C2: the starting layout 4-4-4-6 creates the written-out
fresh village, and the theorem applies to it. -/
theorem spec_c2_created_village_structure_witness :
    create_village_from_type "4-4-4-6" = .ok freshVillage ∧
    ∃ a b c d : Int,
      parse_village_type "4-4-4-6" = .ok [a, b, c, d] ∧
      freshVillage.resource_fields.length = 18 ∧
      freshVillage.resource_fields.map (·.position) = List.range' 1 18 ∧
      freshVillage.resource_fields.map (·.field_type) =
        List.replicate a.toNat .wood ++ List.replicate b.toNat .clay ++
        List.replicate c.toNat .iron ++ List.replicate d.toNat .crop ∧
      (∀ f ∈ freshVillage.resource_fields, f.level = 0) ∧
      freshVillage.buildings = [⟨"g15", "Main Building", 1, 19, false⟩] :=
  ⟨by decide, spec_c2_created_village_structure (by decide)⟩

/-- On an all-level-0 field list the per-field action loop emits exactly
one BuildResourceField with target_level 1 per field. -/
theorem flatMap_field_action_level0 (capital : Bool) (fs : List ResourceField)
    (h : ∀ f ∈ fs, f.level = 0) :
    fs.flatMap (field_action capital) =
      fs.map (fun f => ActionItem.buildResourceField f.position f.field_type 1) := by
  induction fs with
  | nil => rfl
  | cons f rest ih =>
    have hf : f.level = 0 := h f (List.mem_cons_self f rest)
    rw [List.flatMap_cons, List.map_cons, ih (fun g hg => h g (List.mem_cons_of_mem _ hg))]
    simp only [field_action, hf, if_pos rfl]
    rfl

/-- C1: on every freshly created village the action list has exactly 40
elements: in order, one BuildResourceField action per each of the 18
level-0 resource fields (each with target_level 1), one placeholder
build-slot action for each of the 21 vacant building positions 20..40
(position 19 holds the seeded Main Building), and one upgrade element for
the level-1 Main Building (every building below level 25 yields one; the
source emits it as the formatted message string). -/
theorem spec_c1_fresh_valid_actions {s : String} {v : Village}
    (h : create_village_from_type s = .ok v) :
    v.resource_fields.length = 18 ∧
    (∀ f ∈ v.resource_fields, f.level = 0) ∧
    v.get_valid_actions =
      v.resource_fields.map (fun f => ActionItem.buildResourceField f.position f.field_type 1)
      ++ (List.range' 20 21).map (fun p => ActionItem.buildBuildingAction p "Empty" 1)
      ++ [ActionItem.strMessage "Upgrade Main Building (ID: g15) at position 19 from level 1 to 2"] ∧
    v.get_valid_actions.length = 40 := by
  obtain ⟨a, b, c, d, fields, hp, hsum, ha, hb, hc2, hd, hv, hty, hpos, hlev, hlen, hvt⟩ :=
    create_ok_struct h
  subst hv
  have hocc : occupied_positions ⟨s, false, fields, [mainBuilding]⟩ = [(19 : Int)] := rfl
  have hB : ((List.range' 19 22).filter
        (fun (p : Nat) => !([(19 : Int)]).contains ((p : Nat) : Int))).map
      (fun (p : Nat) => ActionItem.buildBuildingAction p "Empty" 1) =
      (List.range' 20 21).map (fun p => ActionItem.buildBuildingAction p "Empty" 1) := by
    decide
  have hC : ([mainBuilding].filterMap
        (fun b => if b.level < 25 then some (ActionItem.strMessage (upgrade_message b)) else none)) =
      [ActionItem.strMessage "Upgrade Main Building (ID: g15) at position 19 from level 1 to 2"] := by
    decide
  have hEq : Village.get_valid_actions ⟨s, false, fields, [mainBuilding]⟩ =
      fields.map (fun f => ActionItem.buildResourceField f.position f.field_type 1)
      ++ (List.range' 20 21).map (fun p => ActionItem.buildBuildingAction p "Empty" 1)
      ++ [ActionItem.strMessage "Upgrade Main Building (ID: g15) at position 19 from level 1 to 2"] := by
    rw [Village.get_valid_actions]
    simp only [hocc]
    rw [flatMap_field_action_level0 false fields hlev, hB, hC]
  refine ⟨hlen, hlev, hEq, ?_⟩
  rw [hEq]
  simp only [List.length_append, List.length_map, List.length_cons, List.length_nil,
    List.length_range', hlen]

/-- Witness for C1: the theorem applied to the starting layout 4-4-4-6 and
its written-out fresh village. -/
theorem spec_c1_fresh_valid_actions_witness :
    create_village_from_type "4-4-4-6" = .ok freshVillage ∧
    freshVillage.get_valid_actions.length = 40 :=
  ⟨by decide, (@spec_c1_fresh_valid_actions "4-4-4-6" freshVillage (by decide)).2.2.2⟩

/-- C5: add_building on an occupied position fails with the
position-occupied error, on an unoccupied position outside [19,40] with the
position-out-of-range error, and every failing call leaves the village
(and so its building list) unchanged, since the append is the final
statement of the method. -/
theorem spec_c5_add_building_failures (v : Village) (id name : String)
    (level position : Int) :
    ((occupied_positions v).contains position = true →
      v.add_building id name level position = (v, some .positionOccupied)) ∧
    ((occupied_positions v).contains position = false →
      ¬(19 ≤ position ∧ position ≤ 40) →
      v.add_building id name level position = (v, some .positionOutOfRange)) ∧
    (∀ v2 e, v.add_building id name level position = (v2, some e) → v2 = v) := by
  refine ⟨?_, ?_, ?_⟩
  · intro h
    rw [Village.add_building, if_pos h]
  · intro h1 h2
    rw [Village.add_building, if_neg (by rw [h1]; exact Bool.noConfusion), if_pos h2]
  · intro v2 e h
    rw [Village.add_building] at h
    by_cases h1 : (occupied_positions v).contains position = true
    · rw [if_pos h1] at h
      injection h with h2 h3
      exact h2.symm
    · rw [if_neg h1] at h
      by_cases h2 : ¬(19 ≤ position ∧ position ≤ 40)
      · rw [if_pos h2] at h
        injection h with h3 h4
        exact h3.symm
      · rw [if_neg h2] at h
        rcases hmk : mkVillageBuilding id name level position with e2 | b
        · rw [hmk] at h
          injection h with h3 h4
          exact h3.symm
        · rw [hmk] at h
          injection h with h3 h4
          exact Option.noConfusion h4

/-- Witness for C5: on the fresh village, position 19 is occupied and
position 41 is out of range, each failing with its error and returning the
unchanged village. -/
theorem spec_c5_add_building_failures_witness :
    freshVillage.add_building "g10" "Warehouse" 1 19 =
      (freshVillage, some VilError.positionOccupied) ∧
    freshVillage.add_building "g10" "Warehouse" 1 41 =
      (freshVillage, some VilError.positionOutOfRange) :=
  ⟨(spec_c5_add_building_failures freshVillage "g10" "Warehouse" 1 19).1 (by decide),
   (spec_c5_add_building_failures freshVillage "g10" "Warehouse" 1 41).2.1 (by decide)
     (by decide)⟩

/-- C9: pydantic construction is the only way the engine builds a
ResourceField, and it bounds level to [0,10]: every successfully
constructed field has level at most 10, and any level of 11 or more is
rejected outright. Nothing in the constructor consults the capital flag of
a village (it is not even a parameter), so the capital range [0,20] the
spec mentions is unrepresentable. -/
theorem spec_c9_field_level_range :
    (∀ (t : ResourceType) (level position : Int) (f : ResourceField),
      mkResourceField t level position = .ok f → f.level ≤ 10) ∧
    (∀ (t : ResourceType) (level position : Int), 11 ≤ level →
      mkResourceField t level position = .error .invalidField) := by
  constructor
  · intro t level position f h
    rw [mkResourceField] at h
    by_cases h1 : 0 ≤ level ∧ level ≤ 10
    · rw [if_pos h1] at h
      by_cases h2 : 1 ≤ position ∧ position ≤ 18
      · rw [if_pos h2] at h
        injection h with h3
        rw [← h3]
        show level.toNat ≤ 10
        omega
      · rw [if_neg h2] at h
        exact Except.noConfusion h
    · rw [if_neg h1] at h
      exact Except.noConfusion h
  · intro t level position h
    rw [mkResourceField, if_neg (by omega)]

/-- Witness for C9: level 11 is rejected; the successfully constructed
level-10 field has level at most 10. -/
theorem spec_c9_field_level_range_witness :
    mkResourceField .wood 11 1 = .error .invalidField ∧
    (⟨.wood, 10, 1, 0⟩ : ResourceField).level ≤ 10 :=
  ⟨spec_c9_field_level_range.2 .wood 11 1 (by decide),
   spec_c9_field_level_range.1 .wood 10 1 ⟨.wood, 10, 1, 0⟩ (by decide)⟩

/-- C10: every placeholder build-slot action in any get_valid_actions
result carries the sentinel building_id Empty and target_level 1, and the
sentinel does not match the g-digits building_id pattern (so it could not
be stored in a VillageBuilding). -/
theorem spec_c10_placeholder_actions :
    (∀ (v : Village) (p : Nat) (id : String) (tl : Nat),
      ActionItem.buildBuildingAction p id tl ∈ v.get_valid_actions →
      id = "Empty" ∧ tl = 1) ∧
    matches_building_id "Empty" = false := by
  constructor
  · intro v p id tl h
    rw [Village.get_valid_actions] at h
    rcases List.mem_append.mp h with h1 | h2
    · rcases List.mem_append.mp h1 with h3 | h4
      · rcases List.mem_flatMap.mp h3 with ⟨f, hf, hmem⟩
        simp only [field_action] at hmem
        split_ifs at hmem <;> simp at hmem
      · rcases List.mem_map.mp h4 with ⟨q, hq, heq⟩
        injection heq with e1 e2 e3
        exact ⟨e2.symm, e3.symm⟩
    · rcases List.mem_filterMap.mp h2 with ⟨b2, hb2, hbe⟩
      by_cases hb25 : b2.level < 25
      · rw [if_pos hb25] at hbe
        injection hbe with hx
        exact ActionItem.noConfusion hx
      · rw [if_neg hb25] at hbe
        exact Option.noConfusion hbe
  · decide

/-- Witness for C10: a placeholder action of the fresh village, taken from
the generated list. -/
theorem spec_c10_placeholder_actions_witness :
    ("Empty" = "Empty" ∧ (1 : Nat) = 1) ∧ matches_building_id "Empty" = false :=
  ⟨spec_c10_placeholder_actions.1 freshVillage 20 "Empty" 1 (by decide),
   spec_c10_placeholder_actions.2⟩

/-- Counterexample for C7: a BuildingEffects whose production_bonus is the
empty mapping. The field is set (it is not None), so the claimed reading
of has_effects is true, but the source computes the Python truthiness of
the dict, which is false for an empty one, so has_effects is false. -/
theorem spec_c7_counterexample :
    emptyBonusEffects.has_effects = false ∧
    emptyBonusEffects.has_effects_claimed = true ∧
    emptyBonusEffects.production_bonus ≠ none := by
  refine ⟨by decide, by decide, by decide⟩

/-- C7 amended: has_effects is true iff production_bonus is a non-empty
mapping (an empty one does not count, by Python truthiness), or one of the
nine other named effect fields is set (not None), or other_effects is
non-empty. -/
theorem spec_c7_amended_has_effects (α : Type) (e : BuildingEffects α) :
    e.has_effects = true ↔
      ((∃ l, e.production_bonus = some l ∧ l ≠ []) ∨
       e.storage_capacity.isSome = true ∨
       e.population_bonus.isSome = true ∨
       e.training_time_reduction.isSome = true ∨
       e.build_time_reduction.isSome = true ∨
       e.build_cost_reduction.isSome = true ∨
       e.offensive_bonus.isSome = true ∨
       e.defensive_bonus.isSome = true ∨
       e.merchant_capacity.isSome = true ∨
       e.culture_points_bonus.isSome = true ∨
       e.other_effects ≠ []) := by
  rcases hpb : e.production_bonus with _ | l
  · simp only [BuildingEffects.has_effects, hpb]
    simp
    tauto
  · simp only [BuildingEffects.has_effects, hpb]
    simp
    tauto

/-- Natural division is the integer floor of the rational quotient. -/
theorem natDiv_cast_floor (n d : Nat) :
    ((n / d : Nat) : ℤ) = ⌊((n : ℚ) / (d : ℚ))⌋ := by
  rcases Nat.eq_zero_or_pos d with hd | hd
  · subst hd
    simp
  · have h1 : ⌊((n : ℚ) / (d : ℚ))⌋₊ = n / d := by
      rw [Nat.floor_div_nat, Nat.floor_natCast]
    have h2 : (0 : ℚ) ≤ (n : ℚ) / (d : ℚ) := by positivity
    calc ((n / d : Nat) : ℤ) = ((⌊((n : ℚ) / (d : ℚ))⌋₊ : Nat) : ℤ) := by rw [h1]
      _ = ((⌊((n : ℚ) / (d : ℚ))⌋.toNat : Nat) : ℤ) := by rw [Int.floor_toNat]
      _ = ⌊((n : ℚ) / (d : ℚ))⌋ := Int.toNat_of_nonneg (Int.floor_nonneg.mpr h2)

/-- The base production of a field depends on the level alone, since every
base rate is 30. -/
theorem base_production_eq (f : ResourceField) :
    f.base_production_per_hour =
      if f.level = 0 then 0 else 30 * f.level * 3 ^ (f.level - 1) / 2 ^ (f.level - 1) := by
  rcases f with ⟨t, l, p, c⟩
  cases t <;> rfl

/-- Counterexample for C4: at level 3 the source computes
int(30 * 3 * 1.5 ** 2) = int(202.5) = 202, which is not equal to the
exponential formula value 202.5, so base_production_per_hour does not
equal 30 * level * 1.5 ** (level - 1) exactly. -/
theorem spec_c4_counterexample :
    ¬(((⟨ResourceType.wood, 3, 1, 0⟩ : ResourceField).base_production_per_hour : ℚ) =
      30 * 3 * (3 / 2 : ℚ) ^ (3 - 1)) := by
  have h : (⟨ResourceType.wood, 3, 1, 0⟩ : ResourceField).base_production_per_hour = 202 := by
    decide
  rw [h]
  norm_num

/-- C4 amended: base_production_per_hour is 0 at level 0; for level at
least 1 it equals the floor (the int truncation of the positive float) of
30 * level * 1.5 ** (level - 1); and it is strictly increasing in level
across the representable field levels 1..10. -/
theorem spec_c4_amended_production :
    (∀ f : ResourceField, f.level = 0 → f.base_production_per_hour = 0) ∧
    (∀ f : ResourceField, 1 ≤ f.level →
      (f.base_production_per_hour : ℤ) =
        ⌊(30 * (f.level : ℚ) * (3 / 2) ^ (f.level - 1))⌋) ∧
    (∀ f g : ResourceField, 1 ≤ f.level → f.level < 10 → g.level = f.level + 1 →
      f.base_production_per_hour < g.base_production_per_hour) := by
  refine ⟨?_, ?_, ?_⟩
  · intro f h
    rw [base_production_eq, if_pos h]
  · intro f h
    rw [base_production_eq, if_neg (by omega)]
    have hq : (30 * (f.level : ℚ) * (3 / 2) ^ (f.level - 1)) =
        ((30 * f.level * 3 ^ (f.level - 1) : Nat) : ℚ) / ((2 ^ (f.level - 1) : Nat) : ℚ) := by
      push_cast
      rw [div_pow]
      ring
    rw [hq, natDiv_cast_floor]
  · intro f g h1 h2 hg
    rw [base_production_eq, base_production_eq, hg]
    have h3 : ∀ l : Nat, 1 ≤ l → l < 10 →
        (if l = 0 then 0 else 30 * l * 3 ^ (l - 1) / 2 ^ (l - 1)) <
        (if l + 1 = 0 then 0 else 30 * (l + 1) * 3 ^ (l + 1 - 1) / 2 ^ (l + 1 - 1)) := by
      decide
    exact h3 f.level h1 h2

/-- Witness for C4 amended: concrete instances of each conjunct. -/
theorem spec_c4_amended_production_witness :
    (⟨ResourceType.wood, 0, 1, 0⟩ : ResourceField).base_production_per_hour = 0 ∧
    (⟨ResourceType.wood, 3, 1, 0⟩ : ResourceField).base_production_per_hour <
      (⟨ResourceType.iron, 4, 2, 0⟩ : ResourceField).base_production_per_hour :=
  ⟨spec_c4_amended_production.1 ⟨ResourceType.wood, 0, 1, 0⟩ rfl,
   spec_c4_amended_production.2.2 ⟨ResourceType.wood, 3, 1, 0⟩ ⟨ResourceType.iron, 4, 2, 0⟩
     (by decide) (by decide) rfl⟩

/-- C3: on a game state whose pending-construction set is empty,
advance_to_next_event fails with NoConstructionsPending; no successor
state is produced, so current_time (and everything else) is untouched. -/
theorem spec_c3_advance_empty_pending (s : GameState)
    (h : s.constructions_in_progress = []) :
    s.advance_to_next_event = .error .noConstructionsPending := by
  rw [GameState.advance_to_next_event, h]
  rfl

/-- Witness for C3: a concrete fully-idle state. -/
theorem spec_c3_advance_empty_pending_witness :
    GameState.advance_to_next_event ⟨0, [], [], [], [], []⟩ =
      .error .noConstructionsPending :=
  spec_c3_advance_empty_pending ⟨0, [], [], [], [], []⟩ rfl

/-- Counterexample for C8: a village reachable through creation followed
by one successful add_building call that holds the Main Building (id g15)
twice, at positions 19 and 20 — nothing prevents the duplicate, because
add_building checks only the position, and no reachable building is ever
marked singleton (creation and add_building both leave the flag at its
False default), so the claim that the Main Building is singleton-protected
fails. -/
theorem spec_c8_counterexample :
    Reachable twoMainVillage ∧
    twoMainVillage.buildings.countP (fun b => b.building_id == "g15") = 2 ∧
    (∀ b ∈ twoMainVillage.buildings, b.singleton = false) :=
  ⟨Reachable.added freshVillage "g15" "Main Building" 1 20 twoMainVillage
      (Reachable.created "4-4-4-6" freshVillage (by decide)) (by decide),
   by decide, by decide⟩

/-- C8 amended: in every reachable village at most one building occupies
any position (the building positions are pairwise distinct), and the
singleton flag is false on every building (it is never set, so the
per-identifier uniqueness the spec attributes to it is not enforced). -/
theorem spec_c8_amended_invariants (v : Village) (h : Reachable v) :
    (v.buildings.map (·.position)).Nodup ∧
    (∀ b ∈ v.buildings, b.singleton = false) := by
  induction h with
  | created s v hc =>
    obtain ⟨a, b, c, d, fields, _, _, _, _, _, _, hv, _, _, _, _, _⟩ := create_ok_struct hc
    subst hv
    constructor
    · simp
    · intro bb hbb
      rw [List.mem_singleton.mp hbb]
      rfl
  | added v id name level position v2 hr hstep ih =>
    rw [Village.add_building] at hstep
    by_cases h1 : (occupied_positions v).contains position = true
    · rw [if_pos h1] at hstep
      injection hstep with _ hx
      exact Option.noConfusion hx
    · rw [if_neg h1] at hstep
      by_cases h2 : ¬(19 ≤ position ∧ position ≤ 40)
      · rw [if_pos h2] at hstep
        injection hstep with _ hx
        exact Option.noConfusion hx
      · rw [if_neg h2] at hstep
        rcases hmk : mkVillageBuilding id name level position with e | bb
        · rw [hmk] at hstep
          injection hstep with _ hx
          exact Option.noConfusion hx
        · rw [hmk] at hstep
          injection hstep with hv2 hx
          rw [mkVillageBuilding] at hmk
          by_cases hm1 : matches_building_id id = true
          swap
          · rw [if_neg hm1] at hmk
            exact Except.noConfusion hmk
          rw [if_pos hm1] at hmk
          by_cases hm2 : 0 ≤ level ∧ level ≤ 25
          swap
          · rw [if_neg hm2] at hmk
            exact Except.noConfusion hmk
          rw [if_pos hm2] at hmk
          by_cases hm3 : 19 ≤ position ∧ position ≤ 40
          swap
          · rw [if_neg hm3] at hmk
            exact Except.noConfusion hmk
          rw [if_pos hm3] at hmk
          injection hmk with hbb
          subst hbb
          subst hv2
          constructor
          · rw [List.map_append]
            rw [List.nodup_append]
            refine ⟨ih.1, by simp, ?_⟩
            intro q hq hq2
            simp only [List.map_cons, List.map_nil, List.mem_singleton] at hq2
            subst hq2
            rcases List.mem_map.mp hq with ⟨bv, hbv, hbveq⟩
            have hocc : ∀ bv2 ∈ v.buildings, ((bv2.position : Nat) : Int) ≠ position := by
              intro bv2 hbv2
              intro heq
              apply h1
              rw [List.contains_eq_any_beq]
              rw [List.any_eq_true]
              exact ⟨(bv2.position : Int), List.mem_map_of_mem _ hbv2, by simp [heq]⟩
            have := hocc bv hbv
            omega
          · intro bb2 hbb2
            rcases List.mem_append.mp hbb2 with hbb2 | hbb2
            · exact ih.2 bb2 hbb2
            · rw [List.mem_singleton.mp hbb2]

/-- Witness for C8 amended: the invariants at the fresh village. -/
theorem spec_c8_amended_invariants_witness :
    (freshVillage.buildings.map (·.position)).Nodup ∧
    (∀ b ∈ freshVillage.buildings, b.singleton = false) :=
  spec_c8_amended_invariants freshVillage
    (Reachable.created "4-4-4-6" freshVillage (by decide))
